import Mathlib

/-!
Verification of the ui_tools widget toolkit (src/ui_system.py, src/operators.py)
against its natural-language specification.

The Python code is shallowly embedded: Python strings become `List Char`,
Python ints become `Int`/`Nat`, Python floats become `ℚ` (the code only adds,
compares, divides and truncates them), and the external text-measurement
backend (`blf.dimensions`) becomes an abstract parameter `dims : List Char → ℚ`.
Each definition carries a comment pointing at the source lines it embeds.
-/

namespace UiSystem

/-- Python `int(x)` applied to a float: truncation toward zero. -/
def pyInt (q : ℚ) : Int := if q < 0 then -⌊-q⌋ else ⌊q⌋

theorem pyInt_intCast (n : Int) : pyInt (n : ℚ) = n := by
  unfold pyInt
  rcases lt_or_le (n : ℚ) 0 with h | h
  · rw [if_pos h, ← Int.cast_neg, Int.floor_intCast, neg_neg]
  · rw [if_neg (not_lt.mpr h), Int.floor_intCast]

/-- A wrapped-line record of `TextInput.update_layout_custom`
(`{'text': ..., 'start': ..., 'end': ...}`, ui_system.py:403-407).
The Python key `end` is a Lean keyword, rendered here as `stop`. -/
structure LineRec where
  text : List Char
  start : Nat
  stop : Nat
deriving DecidableEq

/-- Python `str.split('\n')` (ui_system.py:360). Always returns at least one
piece; pieces contain no newline; separators are dropped. -/
def splitNl : List Char → List (List Char)
  | [] => [[]]
  | c :: rest =>
    if c = '\n' then [] :: splitNl rest
    else
      match splitNl rest with
      | [] => [[c]]
      | p :: ps => (c :: p) :: ps

/-- Python `\s` character class restricted to ASCII, as matched by
`re.split(r'(\s+)', p)` (ui_system.py:371). -/
def isPySpace (c : Char) : Bool :=
  c = ' ' || c = '\t' || c = '\n' || c = '\r' || c = '\x0b' || c = '\x0c'

/-- Prepend one character to a run decomposition, merging it into the first
run when its whitespace class matches. -/
def tokenizePush (c : Char) : List (List Char) → List (List Char)
  | [] => [[c]]
  | [] :: ts => [c] :: [] :: ts
  | (d :: t) :: ts =>
    if isPySpace c = isPySpace d then (c :: d :: t) :: ts
    else [c] :: (d :: t) :: ts

/-- Python `re.split(r'(\s+)', p)` with empty pieces filtered out
(ui_system.py:371 together with the `if not token: continue` at line 378):
the maximal runs of whitespace / non-whitespace characters, in order. -/
def tokenize : List Char → List (List Char)
  | [] => []
  | c :: rest => tokenizePush c (tokenize rest)

/-- The scan of ui_system.py:388-392: starting from chunk length 1, grow the
prefix while it still fits `W`; returns the first length that fails (or
`rem.length + 1` when every prefix fits). `e` is the candidate length, `fuel`
bounds the loop. -/
def chunkFirstFail (dims : List Char → ℚ) (W : ℚ) (rem : List Char) :
    Nat → Nat → Nat
  | 0, e => e
  | fuel + 1, e =>
    if e ≤ rem.length ∧ dims (rem.take e) ≤ W then
      chunkFirstFail dims W rem fuel (e + 1)
    else e

/-- Length of the next chunk cut from an over-wide token
(ui_system.py:387-394: `end -= 1; if end == start: end = start + 1`). -/
def chunkLen (dims : List Char → ℚ) (W : ℚ) (rem : List Char) : Nat :=
  max 1 (chunkFirstFail dims W rem rem.length 1 - 1)

theorem chunkLen_pos (dims : List Char → ℚ) (W : ℚ) (rem : List Char) :
    1 ≤ chunkLen dims W rem :=
  le_max_left 1 _

/-- The chunk loop of ui_system.py:385-395: cut an over-wide token into
character chunks. `fuel` is initialised with the token length; each step
consumes at least one character, so the fuel never runs out. -/
def chunkify (dims : List Char → ℚ) (W : ℚ) : Nat → List Char → List (List Char)
  | _, [] => []
  | 0, rem => [rem]
  | fuel + 1, rem =>
    rem.take (chunkLen dims W rem) ::
      chunkify dims W fuel (rem.drop (chunkLen dims W rem))

theorem chunkify_flatten (dims : List Char → ℚ) (W : ℚ) :
    ∀ fuel rem, (chunkify dims W fuel rem).flatten = rem := by
  intro fuel
  induction fuel with
  | zero => intro rem; cases rem <;> simp [chunkify]
  | succ n ih =>
    intro rem
    cases rem with
    | nil => simp [chunkify]
    | cons c cs =>
      simp [chunkify, ih, List.take_append_drop]

/-- State of the greedy line-packing loop of ui_system.py:373-431:
`lines` are the finished line records, `curToks` is `current_line_tokens`,
`curWidth` is `current_line_width` and `lineStart` is `line_start_index`. -/
structure WrapState where
  lines : List LineRec
  curToks : List (List Char)
  curWidth : ℚ
  lineStart : Nat

/-- One unit (a token, or one chunk of an over-wide token) passing through the
pack-or-flush logic of ui_system.py:398-431. Both the chunk branch
(lines 398-415) and the token branch (lines 416-431) perform exactly this
step. -/
def wrapStep (dims : List Char → ℚ) (W : ℚ) (st : WrapState)
    (unit : List Char) : WrapState :=
  let uw := dims unit
  if st.curToks ≠ [] ∧ st.curWidth + uw > W then
    let lineText := st.curToks.flatten
    { lines := st.lines ++
        [⟨lineText, st.lineStart, st.lineStart + lineText.length⟩],
      curToks := [unit],
      curWidth := uw,
      lineStart := st.lineStart + lineText.length }
  else
    { st with curToks := st.curToks ++ [unit], curWidth := st.curWidth + uw }

/-- The sequence of units fed through the packing loop for one paragraph:
each token wider than the area is first cut into chunks (ui_system.py:383). -/
def paragraphUnits (dims : List Char → ℚ) (W : ℚ) (p : List Char) :
    List (List Char) :=
  (tokenize p).flatMap fun t =>
    if dims t > W then chunkify dims W t.length t else [t]

/-- Wrapping of a single paragraph starting at absolute index `pStart`
(body of the `for i, p in enumerate(paragraphs)` loop, ui_system.py:364-443). -/
def wrapParagraph (dims : List Char → ℚ) (W : ℚ) (p : List Char)
    (pStart : Nat) : List LineRec :=
  let final := (paragraphUnits dims W p).foldl (wrapStep dims W)
    ⟨[], [], 0, pStart⟩
  if final.curToks ≠ [] then
    let lineText := final.curToks.flatten
    final.lines ++
      [⟨lineText, final.lineStart, final.lineStart + lineText.length⟩]
  else if p = [] then [⟨[], pStart, pStart⟩]
  else final.lines

/-- The paragraph loop with its running index: paragraph `i+1` starts one
position after the end of paragraph `i`, skipping the `'\n'`
(ui_system.py:362-367 and 445). -/
def wrapParagraphs (dims : List Char → ℚ) (W : ℚ) :
    List (List Char) → Nat → List LineRec
  | [], _ => []
  | p :: ps, idx =>
    wrapParagraph dims W p idx ++ wrapParagraphs dims W ps (idx + p.length + 1)

/-- `TextInput.update_layout_custom` (ui_system.py:349-450), restricted to the
line records it produces. `dims` abstracts `blf.dimensions(0, s)[0]` and `W`
is the effective `text_area_width` in pixels. -/
def update_layout_custom (dims : List Char → ℚ) (W : ℚ) (text : List Char) :
    List LineRec :=
  wrapParagraphs dims W (splitNl text) 0

/-- Python slice `s[a:b]` for 0 ≤ a, b. -/
def pySlice (s : List Char) (a b : Nat) : List Char := (s.take b).drop a

/-- The indices a line record claims to cover: `[start, stop)`. -/
def covIdx (l : LineRec) : List Nat := List.range' l.start (l.stop - l.start)

/-- The positions of the non-newline characters of a string, starting the
count at `i`. -/
def nonNlPositions : List Char → Nat → List Nat
  | [], _ => []
  | c :: cs, i =>
    if c = '\n' then nonNlPositions cs (i + 1)
    else i :: nonNlPositions cs (i + 1)

/-! ### Structural lemmas about the wrap loop -/

theorem tokenize_flatten : ∀ p : List Char, (tokenize p).flatten = p := by
  intro p
  induction p with
  | nil => simp [tokenize]
  | cons c rest ih =>
    show (tokenizePush c (tokenize rest)).flatten = c :: rest
    rcases h : tokenize rest with _ | ⟨t, ts⟩ <;> rw [h] at ih
    · simp only [List.flatten_nil] at ih
      rw [← ih]
      rfl
    · rcases t with _ | ⟨d, t⟩
      · simp only [List.flatten_cons, List.nil_append] at ih
        show ([c] :: [] :: ts).flatten = c :: rest
        simp [List.flatten_cons, ih]
      · simp only [List.flatten_cons] at ih
        show (if isPySpace c = isPySpace d then (c :: d :: t) :: ts
          else [c] :: (d :: t) :: ts).flatten = c :: rest
        split <;> simp [List.flatten_cons, ← ih]

/-- Reconstruction of a string from its newline-split pieces
(inverse of `splitNl`). -/
def joinNl : List (List Char) → List Char
  | [] => []
  | [p] => p
  | p :: q :: ps => p ++ '\n' :: joinNl (q :: ps)

theorem splitNl_ne_nil (cs : List Char) : splitNl cs ≠ [] := by
  cases cs with
  | nil => simp [splitNl]
  | cons c rest =>
    unfold splitNl
    split
    · simp
    · rcases h : splitNl rest with _ | ⟨p, ps⟩ <;> simp

theorem joinNl_splitNl : ∀ cs : List Char, joinNl (splitNl cs) = cs := by
  intro cs
  induction cs with
  | nil => simp [splitNl, joinNl]
  | cons c rest ih =>
    unfold splitNl
    by_cases hc : c = '\n'
    · subst hc
      rw [if_pos rfl]
      rcases h : splitNl rest with _ | ⟨p, ps⟩
      · exact absurd h (splitNl_ne_nil rest)
      · rw [h] at ih
        show [] ++ '\n' :: joinNl (p :: ps) = '\n' :: rest
        simp [ih]
    · rw [if_neg hc]
      rcases h : splitNl rest with _ | ⟨p, ps⟩
      · exact absurd h (splitNl_ne_nil rest)
      · rw [h] at ih
        rcases ps with _ | ⟨q, qs⟩
        · show c :: p = c :: rest
          simpa [joinNl] using ih
        · show (c :: p) ++ '\n' :: joinNl (q :: qs) = c :: rest
          simpa [joinNl] using ih

theorem splitNl_no_nl : ∀ cs : List Char, ∀ p ∈ splitNl cs, '\n' ∉ p := by
  intro cs
  induction cs with
  | nil => simp [splitNl]
  | cons c rest ih =>
    intro p hp
    unfold splitNl at hp
    by_cases hc : c = '\n'
    · rw [if_pos hc] at hp
      rcases List.mem_cons.mp hp with rfl | hp'
      · simp
      · exact ih p hp'
    · rw [if_neg hc] at hp
      rcases h : splitNl rest with _ | ⟨q, qs⟩
      · exact absurd h (splitNl_ne_nil rest)
      · rw [h] at hp
        rcases List.mem_cons.mp hp with rfl | hp'
        · intro hmem
          rcases List.mem_cons.mp hmem with heq | hmem'
          · exact hc heq.symm
          · exact ih q (by rw [h]; exact List.mem_cons_self q qs) hmem'
        · exact ih p (by rw [h]; exact List.mem_cons_of_mem q hp')

theorem splitNl_flatten_filter : ∀ cs : List Char,
    (splitNl cs).flatten = cs.filter (fun c => !(c = '\n')) := by
  intro cs
  induction cs with
  | nil => simp [splitNl]
  | cons c rest ih =>
    unfold splitNl
    by_cases hc : c = '\n'
    · subst hc
      rw [if_pos rfl]
      simpa [List.filter_cons] using ih
    · rw [if_neg hc]
      rcases h : splitNl rest with _ | ⟨p, ps⟩
      · exact absurd h (splitNl_ne_nil rest)
      · rw [h] at ih
        simp only [List.flatten_cons] at ih ⊢
        simp [List.filter_cons, hc, ih]

/-- Build the chain of contiguous line records for the given texts, starting
at absolute index `i`. -/
def mkChain (i : Nat) : List (List Char) → List LineRec
  | [] => []
  | t :: ts => ⟨t, i, i + t.length⟩ :: mkChain (i + t.length) ts

theorem mkChain_append (ts : List (List Char)) : ∀ (i : Nat) (us : List (List Char)),
    mkChain i (ts ++ us) = mkChain i ts ++ mkChain (i + ts.flatten.length) us := by
  induction ts with
  | nil => intro i us; simp [mkChain]
  | cons t ts ih =>
    intro i us
    simp only [List.cons_append, mkChain, List.flatten_cons,
      List.length_append, List.append_eq]
    rw [ih]
    simp [Nat.add_assoc]

theorem mkChain_texts (ts : List (List Char)) : ∀ i,
    (mkChain i ts).map (fun l => l.text) = ts := by
  induction ts with
  | nil => intro i; simp [mkChain]
  | cons t ts ih => intro i; simp [mkChain, ih]

/-- Invariant of the packing loop: the finished lines form a contiguous chain
starting at `pStart`, and `lineStart` points just past them. -/
def GoodWrap (pStart : Nat) (st : WrapState) : Prop :=
  st.lines = mkChain pStart (st.lines.map (fun l => l.text)) ∧
  st.lineStart = pStart + ((st.lines.map (fun l => l.text)).flatten).length

/-- All text the packing loop has taken in so far: flushed lines plus the
pending current line. -/
def consumedWrap (st : WrapState) : List Char :=
  ((st.lines.map (fun l => l.text)).flatten) ++ st.curToks.flatten

theorem wrapStep_good (dims : List Char → ℚ) (W : ℚ) (pStart : Nat)
    (st : WrapState) (u : List Char) (h : GoodWrap pStart st) :
    GoodWrap pStart (wrapStep dims W st u) ∧
    consumedWrap (wrapStep dims W st u) = consumedWrap st ++ u := by
  obtain ⟨h1, h2⟩ := h
  unfold wrapStep
  by_cases hc : st.curToks ≠ [] ∧ st.curWidth + dims u > W
  · rw [if_pos hc]
    refine ⟨⟨?_, ?_⟩, ?_⟩
    · simp only [List.map_append, List.map_cons, List.map_nil]
      rw [mkChain_append, ← h1, ← h2]
      simp [mkChain]
    · simp only [List.map_append, List.map_cons, List.map_nil,
        List.flatten_append, List.flatten_cons, List.flatten_nil,
        List.length_append, List.append_nil]
      rw [h2]
      ring
    · simp [consumedWrap, List.flatten_append, List.append_assoc]
  · rw [if_neg hc]
    refine ⟨⟨h1, h2⟩, ?_⟩
    simp [consumedWrap, List.flatten_append, List.append_assoc]

theorem foldl_wrapStep_good (dims : List Char → ℚ) (W : ℚ) (pStart : Nat) :
    ∀ (units : List (List Char)) (st : WrapState), GoodWrap pStart st →
      GoodWrap pStart (units.foldl (wrapStep dims W) st) ∧
      consumedWrap (units.foldl (wrapStep dims W) st) =
        consumedWrap st ++ units.flatten := by
  intro units
  induction units with
  | nil => intro st h; simpa using h
  | cons u us ih =>
    intro st h
    obtain ⟨hg, hc⟩ := wrapStep_good dims W pStart st u h
    obtain ⟨hg2, hc2⟩ := ih _ hg
    refine ⟨hg2, ?_⟩
    simp only [List.foldl_cons] at *
    rw [hc2, hc, List.flatten_cons, List.append_assoc]

theorem flatMap_flatten_id {f : List Char → List (List Char)}
    (hf : ∀ t, (f t).flatten = t) :
    ∀ ts : List (List Char), (ts.flatMap f).flatten = ts.flatten := by
  intro ts
  induction ts with
  | nil => simp
  | cons t ts ih => simp [List.flatMap_cons, List.flatten_append, hf, ih]

theorem paragraphUnits_flatten (dims : List Char → ℚ) (W : ℚ) (p : List Char) :
    (paragraphUnits dims W p).flatten = p := by
  unfold paragraphUnits
  rw [flatMap_flatten_id, tokenize_flatten]
  intro t
  split
  · exact chunkify_flatten dims W t.length t
  · simp

theorem wrapParagraph_chain (dims : List Char → ℚ) (W : ℚ) (p : List Char)
    (pStart : Nat) :
    ∃ Ts : List (List Char),
      wrapParagraph dims W p pStart = mkChain pStart Ts ∧ Ts.flatten = p := by
  have h0 : GoodWrap pStart ⟨[], [], 0, pStart⟩ := by
    constructor <;> simp [mkChain]
  obtain ⟨⟨hg1, hg2⟩, hc⟩ :=
    foldl_wrapStep_good dims W pStart (paragraphUnits dims W p) _ h0
  rw [paragraphUnits_flatten] at hc
  have hc' : consumedWrap ((paragraphUnits dims W p).foldl (wrapStep dims W)
      ⟨[], [], 0, pStart⟩) = p := by
    rw [hc]; simp [consumedWrap]
  unfold wrapParagraph
  set final := (paragraphUnits dims W p).foldl (wrapStep dims W)
    ⟨[], [], 0, pStart⟩ with hfinal
  by_cases hT : final.curToks ≠ []
  · rw [if_pos hT]
    refine ⟨(final.lines.map (fun l => l.text)) ++ [final.curToks.flatten],
      ?_, ?_⟩
    · rw [mkChain_append, ← hg1, ← hg2]
      simp [mkChain]
    · rw [List.flatten_append]
      simpa [consumedWrap] using hc'
  · rw [if_neg hT]
    push_neg at hT
    by_cases hp : p = []
    · rw [if_pos hp]
      exact ⟨[[]], by simp [mkChain], by simp [hp]⟩
    · rw [if_neg hp]
      refine ⟨final.lines.map (fun l => l.text), hg1, ?_⟩
      simpa [consumedWrap, hT] using hc'

theorem mkChain_ranges (ts : List (List Char)) : ∀ i,
    ((mkChain i ts).map covIdx).flatten = List.range' i ts.flatten.length := by
  induction ts with
  | nil => intro i; simp [mkChain]
  | cons t ts ih =>
    intro i
    simp only [mkChain, List.map_cons, List.flatten_cons, covIdx,
      Nat.add_sub_cancel_left, ih, List.flatten_cons, List.length_append]
    have := List.range'_append i t.length ts.flatten.length 1
    simp only [one_mul] at this
    rw [this, Nat.add_comm]

theorem pySlice_middle (pre mid suf : List Char) :
    pySlice (pre ++ mid ++ suf) pre.length (pre.length + mid.length) = mid := by
  unfold pySlice
  rw [List.append_assoc, List.take_append]
  have h1 : List.take mid.length (mid ++ suf) = mid := List.take_left mid suf
  rw [h1, List.drop_left]

theorem mkChain_slices (ts : List (List Char)) :
    ∀ (pre suf : List Char), ∀ l ∈ mkChain pre.length ts,
      pySlice (pre ++ ts.flatten ++ suf) l.start l.stop = l.text := by
  induction ts with
  | nil => intro pre suf l hl; simp [mkChain] at hl
  | cons t ts ih =>
    intro pre suf l hl
    simp only [mkChain, List.mem_cons] at hl
    rcases hl with rfl | hl
    · have hrw : pre ++ (t :: ts).flatten ++ suf =
          pre ++ t ++ (ts.flatten ++ suf) := by
        simp [List.flatten_cons, List.append_assoc]
      rw [hrw]
      exact pySlice_middle pre t (ts.flatten ++ suf)
    · have hl' : l ∈ mkChain (pre ++ t).length ts := by
        rw [List.length_append]; exact hl
      have := ih (pre ++ t) suf l hl'
      have hrw : (pre ++ t) ++ ts.flatten ++ suf =
          pre ++ (t :: ts).flatten ++ suf := by
        simp [List.flatten_cons, List.append_assoc]
      rw [hrw] at this
      exact this

theorem wrapParagraphs_texts (dims : List Char → ℚ) (W : ℚ) :
    ∀ (ps : List (List Char)) (idx : Nat),
      ((wrapParagraphs dims W ps idx).map (fun l => l.text)).flatten =
        ps.flatten := by
  intro ps
  induction ps with
  | nil => intro idx; simp [wrapParagraphs]
  | cons p rest ih =>
    intro idx
    obtain ⟨Ts, hchain, hflat⟩ := wrapParagraph_chain dims W p idx
    simp only [wrapParagraphs, List.map_append, List.flatten_append, hchain,
      mkChain_texts, hflat, ih, List.flatten_cons]

theorem wrapParagraphs_slices (dims : List Char → ℚ) (W : ℚ) :
    ∀ (ps : List (List Char)) (pre : List Char),
      ∀ l ∈ wrapParagraphs dims W ps pre.length,
        pySlice (pre ++ joinNl ps) l.start l.stop = l.text := by
  intro ps
  induction ps with
  | nil => intro pre l hl; simp [wrapParagraphs] at hl
  | cons p rest ih =>
    intro pre l hl
    obtain ⟨Ts, hchain, hflat⟩ := wrapParagraph_chain dims W p pre.length
    simp only [wrapParagraphs, List.mem_append, hchain] at hl
    rcases hl with hl | hl
    · rcases rest with _ | ⟨q, qs⟩
      · have h2 := mkChain_slices Ts pre [] l hl
        rw [List.append_nil] at h2
        simpa [joinNl, hflat] using h2
      · have h2 := mkChain_slices Ts pre ('\n' :: joinNl (q :: qs)) l hl
        have hrw : pre ++ Ts.flatten ++ ('\n' :: joinNl (q :: qs)) =
            pre ++ joinNl (p :: q :: qs) := by
          simp [joinNl, hflat, List.append_assoc]
        rw [hrw] at h2
        exact h2
    · rcases rest with _ | ⟨q, qs⟩
      · simp [wrapParagraphs] at hl
      · have hlen : (pre ++ p ++ ['\n']).length = pre.length + p.length + 1 := by
          simp only [List.length_append, List.length_cons, List.length_nil]
        have h2 := ih (pre ++ p ++ ['\n']) l (by rw [hlen]; exact hl)
        have hrw : (pre ++ p ++ ['\n']) ++ joinNl (q :: qs) =
            pre ++ joinNl (p :: q :: qs) := by
          simp [joinNl, List.append_assoc]
        rw [hrw] at h2
        exact h2

theorem nonNlPositions_append_free :
    ∀ (p : List Char), '\n' ∉ p → ∀ (r : List Char) (i : Nat),
      nonNlPositions (p ++ r) i =
        List.range' i p.length ++ nonNlPositions r (i + p.length) := by
  intro p
  induction p with
  | nil => intro _ r i; simp [nonNlPositions]
  | cons c p' ih =>
    intro hp r i
    have hc : ¬(c = '\n') := fun h => hp (h ▸ List.mem_cons_self c p')
    have hp' : '\n' ∉ p' := fun h => hp (List.mem_cons_of_mem c h)
    have hcons : nonNlPositions (c :: (p' ++ r)) i =
        i :: nonNlPositions (p' ++ r) (i + 1) := by
      simp [nonNlPositions, hc]
    show nonNlPositions (c :: (p' ++ r)) i = _
    rw [hcons, ih hp' r (i + 1)]
    rw [show (c :: p').length = p'.length + 1 from rfl, List.range'_succ]
    rw [show i + 1 + p'.length = i + (p'.length + 1) from by omega]
    simp [List.cons_append]

theorem nonNlPositions_free (p : List Char) (hp : '\n' ∉ p) (i : Nat) :
    nonNlPositions p i = List.range' i p.length := by
  have h := nonNlPositions_append_free p hp [] i
  simpa [nonNlPositions] using h

theorem wrapParagraphs_ranges (dims : List Char → ℚ) (W : ℚ) :
    ∀ (ps : List (List Char)), (∀ p ∈ ps, '\n' ∉ p) → ∀ idx,
      ((wrapParagraphs dims W ps idx).map covIdx).flatten =
        nonNlPositions (joinNl ps) idx := by
  intro ps
  induction ps with
  | nil => intro _ idx; simp [wrapParagraphs, joinNl, nonNlPositions]
  | cons p rest ih =>
    intro hfree idx
    obtain ⟨Ts, hchain, hflat⟩ := wrapParagraph_chain dims W p idx
    have hpfree : '\n' ∉ p := hfree p (List.mem_cons_self _ _)
    rcases rest with _ | ⟨q, qs⟩
    · have hstep : wrapParagraphs dims W [p] idx = wrapParagraph dims W p idx := by
        simp [wrapParagraphs]
      rw [hstep, hchain, mkChain_ranges, hflat]
      show List.range' idx p.length = nonNlPositions p idx
      rw [nonNlPositions_free p hpfree idx]
    · have hstep : wrapParagraphs dims W (p :: q :: qs) idx =
          wrapParagraph dims W p idx ++
            wrapParagraphs dims W (q :: qs) (idx + p.length + 1) := rfl
      have hrest := ih (fun x hx => hfree x (List.mem_cons_of_mem p hx))
        (idx + p.length + 1)
      rw [hstep, List.map_append, List.flatten_append, hchain, mkChain_ranges,
        hflat, hrest]
      have hjoin : joinNl (p :: q :: qs) = p ++ '\n' :: joinNl (q :: qs) := rfl
      rw [hjoin, nonNlPositions_append_free p hpfree]
      have hnl : nonNlPositions ('\n' :: joinNl (q :: qs)) (idx + p.length) =
          nonNlPositions (joinNl (q :: qs)) (idx + p.length + 1) := by
        simp [nonNlPositions]
      rw [hnl]

/-- Claim C1 (amended): for every measurement function, every width `w > 0`
and every text `s`, the line records produced by
`TextInput.update_layout_custom` cover exactly the non-newline characters of
`s`, each exactly once and in order, and concatenating the original-text
slices `s[start:end]` of all records reconstructs `s` with its newline
characters removed. The `'\n'` characters themselves are skipped by the
index bookkeeping (ui_system.py:366-367) and belong to no span, so the exact
round trip claimed holds only for newline-free text. -/
theorem C1_wrap_round_trip (dims : List Char → ℚ) (W : ℚ) (hW : 0 < W)
    (s : List Char) :
    ((update_layout_custom dims W s).map
        (fun l => pySlice s l.start l.stop)).flatten
      = s.filter (fun c => !(c = '\n'))
    ∧ ((update_layout_custom dims W s).map covIdx).flatten
      = nonNlPositions s 0 := by
  constructor
  · have hmap : (update_layout_custom dims W s).map
        (fun l => pySlice s l.start l.stop)
        = (update_layout_custom dims W s).map (fun l => l.text) := by
      apply List.map_congr_left
      intro l hl
      have hl0 : l ∈ wrapParagraphs dims W (splitNl s)
          ([] : List Char).length := hl
      have h2 := wrapParagraphs_slices dims W (splitNl s) [] l hl0
      simpa [joinNl_splitNl] using h2
    rw [hmap]
    show ((wrapParagraphs dims W (splitNl s) 0).map (fun l => l.text)).flatten
      = _
    rw [wrapParagraphs_texts, splitNl_flatten_filter]
  · show ((wrapParagraphs dims W (splitNl s) 0).map covIdx).flatten = _
    rw [wrapParagraphs_ranges dims W (splitNl s) (splitNl_no_nl s) 0,
      joinNl_splitNl]

/-- Witness for C1: the amended theorem applied at the concrete measurement
`length`, width 100 and text "hi there". -/
theorem C1_wrap_round_trip_witness :
    (0 : ℚ) < 100 ∧
    (((update_layout_custom (fun cs => (cs.length : ℚ)) 100
          ['h', 'i', ' ', 'y', 'o']).map
        (fun l => pySlice ['h', 'i', ' ', 'y', 'o'] l.start l.stop)).flatten
      = ['h', 'i', ' ', 'y', 'o'].filter (fun c => !(c = '\n'))
    ∧ ((update_layout_custom (fun cs => (cs.length : ℚ)) 100
          ['h', 'i', ' ', 'y', 'o']).map covIdx).flatten
      = nonNlPositions ['h', 'i', ' ', 'y', 'o'] 0) :=
  ⟨by norm_num, C1_wrap_round_trip _ 100 (by norm_num) _⟩

/-- Counterexample to claim C1 as stated: at the text "a\nb" (with any
width, here 100 > 0, and the unit-per-character measurement) concatenating
the slices `s[start:end]` of all line records yields "ab", not "a\nb": the
newline is covered by no span, so the claimed exact reconstruction fails. -/
theorem C1_counterexample :
    (0 : ℚ) < 100 ∧
    ((update_layout_custom (fun cs => (cs.length : ℚ)) 100
        ['a', '\n', 'b']).map
        (fun l => pySlice ['a', '\n', 'b'] l.start l.stop)).flatten
      ≠ ['a', '\n', 'b'] := by
  refine ⟨by norm_num, ?_⟩
  have h : ((update_layout_custom (fun cs => (cs.length : ℚ)) 100
      ['a', '\n', 'b']).map
      (fun l => pySlice ['a', '\n', 'b'] l.start l.stop)).flatten
      = ['a', 'b'] := by
    with_unfolding_all rfl
  rw [h]
  decide

/-! ### TextInput event handling (ui_system.py:540-688) -/

/-- The Blender event types `TextInput.handle_event` dispatches on. `KEY`
stands for any other key type (in particular a printable-character key). -/
inductive EvType
  | LEFTMOUSE | MOUSEMOVE | BACK_SPACE | DEL | RET | ESC
  | LEFT_ARROW | RIGHT_ARROW | KEY
deriving DecidableEq

/-- Blender `event.value`; `NOVAL` stands for any other value. -/
inductive EvValue
  | PRESS | RELEASE | NOVAL
deriving DecidableEq

/-- A Blender event as consumed by the widgets: its type, its value, and its
`unicode` string (empty for non-text keys). -/
structure UIEvent where
  etype : EvType
  value : EvValue
  unicode : List Char
deriving DecidableEq

/-- The mutable state of a `TextInput` (ui_system.py:327-347) together with
the geometry its mouse handling reads: `gx`/`gy` are the resolved
`global_x`/`global_y`, `height` the unscaled widget height, `padding` and
`line_height` as in the constructor. -/
structure TIState where
  text : List Char
  cursor_pos : Nat
  selection_start : Option Nat
  selection_end : Option Nat
  is_selecting : Bool
  focused : Bool
  hover : Bool
  lines : List LineRec
  gx : ℚ
  gy : ℚ
  height : Int
  padding : ℚ
  line_height : Int

/-- The prefix scan of ui_system.py:675-682: try prefix lengths `i` upward
while the distance to the click improves; stop at the first non-improving
length and return the best so far. -/
def scanBestGo (measure : Nat → ℚ) (relx : ℚ) :
    Nat → Nat → Nat → ℚ → Nat
  | 0, _, best, _ => best
  | fuel + 1, i, best, mind =>
    if |measure i - relx| < mind then
      scanBestGo measure relx fuel (i + 1) i (|measure i - relx|)
    else best

/-- The full prefix scan (ui_system.py:669-682): prefix length 0 always
improves on the initial infinite distance, then lengths 1..n are tried. -/
def scanBest (measure : Nat → ℚ) (relx : ℚ) (n : Nat) : Nat :=
  scanBestGo measure relx n 1 0 (|measure 0 - relx|)

theorem scanBestGo_le (measure : Nat → ℚ) (relx : ℚ) (n : Nat) :
    ∀ (fuel i best : Nat) (mind : ℚ), best ≤ n → i + fuel = n + 1 →
      scanBestGo measure relx fuel i best mind ≤ n := by
  intro fuel
  induction fuel with
  | zero => intro i best mind hb _; simpa [scanBestGo] using hb
  | succ f ih =>
    intro i best mind hb hi
    unfold scanBestGo
    split
    · exact ih (i + 1) i _ (by omega) (by omega)
    · exact hb

theorem scanBest_le (measure : Nat → ℚ) (relx : ℚ) (n : Nat) :
    scanBest measure relx n ≤ n :=
  scanBestGo_le measure relx n n 1 0 _ (Nat.zero_le n) (by omega)

/-- The clicked line index (ui_system.py:651-661): vertical distance from the
content top, floor-divided by the line height. -/
def mouseLineIndex (uiScale : ℚ) (st : TIState) (click_y : ℚ) : Int :=
  let scaled_height : Int := pyInt ((st.height : ℚ) * uiScale)
  let top_y : ℚ := st.gy + (scaled_height : ℚ) - st.padding * uiScale
  let relative_y : ℚ := top_y - click_y
  if 0 < st.line_height then ⌊relative_y / (st.line_height : ℚ)⌋ else 0

/-- `TextInput._get_cursor_pos_from_mouse` (ui_system.py:650-688). -/
def get_cursor_pos_from_mouse (dims : List Char → ℚ) (uiScale : ℚ)
    (st : TIState) (click_x click_y : ℚ) : Nat :=
  if 0 ≤ mouseLineIndex uiScale st click_y ∧
      mouseLineIndex uiScale st click_y < (st.lines.length : Int) then
    let line := st.lines.getD (mouseLineIndex uiScale st click_y).toNat ⟨[], 0, 0⟩
    line.start + scanBest (fun i => dims (line.text.take i))
      (click_x - (st.gx + st.padding * uiScale)) line.text.length
  else if mouseLineIndex uiScale st click_y < 0 then 0
  else st.text.length

theorem get_cursor_pos_from_mouse_le (dims : List Char → ℚ) (uiScale : ℚ)
    (st : TIState) (click_x click_y : ℚ)
    (hl : ∀ l ∈ st.lines, l.start + l.text.length ≤ st.text.length) :
    get_cursor_pos_from_mouse dims uiScale st click_x click_y ≤
      st.text.length := by
  unfold get_cursor_pos_from_mouse
  split
  · rename_i h
    have hlt : (mouseLineIndex uiScale st click_y).toNat < st.lines.length := by
      omega
    rw [List.getD_eq_getElem _ _ hlt]
    have hmem : st.lines[(mouseLineIndex uiScale st click_y).toNat] ∈ st.lines :=
      List.getElem_mem hlt
    have hb := hl _ hmem
    have hs := scanBest_le
      (fun i => dims (st.lines[(mouseLineIndex uiScale st click_y).toNat].text.take i))
      (click_x - (st.gx + st.padding * uiScale))
      (st.lines[(mouseLineIndex uiScale st click_y).toNat].text.length)
    show st.lines[(mouseLineIndex uiScale st click_y).toNat].start +
      scanBest _ _ _ ≤ st.text.length
    omega
  · split
    · exact Nat.zero_le _
    · exact Nat.le_refl _

/-- The tail `elif` chain of `TextInput.handle_event`
(ui_system.py:601-648), reached when no non-empty selection is active. -/
def restKeys (st : TIState) (ev : UIEvent) : TIState × Bool :=
  if ev.etype = EvType.ESC then ({ st with focused := false }, false)
  else if ev.etype = EvType.RET then
    ({ st with
        text := st.text.take st.cursor_pos ++ ['\n'] ++
          st.text.drop st.cursor_pos,
        cursor_pos := st.cursor_pos + 1 }, true)
  else if ev.etype = EvType.BACK_SPACE then
    if 0 < st.cursor_pos then
      ({ st with
          text := st.text.take (st.cursor_pos - 1) ++
            st.text.drop st.cursor_pos,
          cursor_pos := st.cursor_pos - 1 }, true)
    else (st, false)
  else if ev.etype = EvType.DEL then
    if st.cursor_pos < st.text.length then
      ({ st with
          text := st.text.take st.cursor_pos ++
            st.text.drop (st.cursor_pos + 1) }, true)
    else (st, false)
  else if ev.etype = EvType.LEFT_ARROW then
    if 0 < st.cursor_pos then
      ({ st with
          cursor_pos := st.cursor_pos - 1,
          selection_start := none, selection_end := none }, true)
    else (st, true)
  else if ev.etype = EvType.RIGHT_ARROW then
    if st.cursor_pos < st.text.length then
      ({ st with
          cursor_pos := st.cursor_pos + 1,
          selection_start := none, selection_end := none }, true)
    else (st, true)
  else if ev.unicode ≠ [] then
    ({ st with
        text := st.text.take st.cursor_pos ++ ev.unicode ++
          st.text.drop st.cursor_pos,
        cursor_pos := st.cursor_pos + 1 }, true)
  else (st, false)

/-- The key-press stage of `TextInput.handle_event` (ui_system.py:578-648):
a non-empty active selection first takes the delete-selection branch
(lines 582-599); only otherwise is the `elif` chain below it reachable. -/
def handleKey (st : TIState) (ev : UIEvent) : TIState × Bool :=
  match st.selection_start, st.selection_end with
  | some a, some b =>
    if a ≠ b then
      if ev.etype = EvType.BACK_SPACE ∨ ev.etype = EvType.DEL ∨
          ev.unicode ≠ [] then
        let smin := min a b
        let smax := max a b
        let st1 := { st with
          text := st.text.take smin ++ st.text.drop smax,
          cursor_pos := smin,
          selection_start := (none : Option Nat),
          selection_end := (none : Option Nat) }
        if ev.etype = EvType.BACK_SPACE ∨ ev.etype = EvType.DEL then (st1, true)
        else
          ({ st1 with
              text := st1.text.take st1.cursor_pos ++ ev.unicode ++
                st1.text.drop st1.cursor_pos,
              cursor_pos := st1.cursor_pos + 1 }, true)
      else (st, false)
    else restKeys st ev
  | _, _ => restKeys st ev

/-- The part of `TextInput.handle_event` after the LEFTMOUSE block
(ui_system.py:567-648). -/
def handleRest (dims : List Char → ℚ) (uiScale : ℚ) (st : TIState)
    (ev : UIEvent) (mx my : ℚ) : TIState × Bool :=
  if ev.etype = EvType.MOUSEMOVE ∧ st.is_selecting then
    let pos := get_cursor_pos_from_mouse dims uiScale st mx my
    ({ st with cursor_pos := pos, selection_end := some pos }, true)
  else if st.focused = false then (st, false)
  else if ev.value = EvValue.PRESS then handleKey st ev
  else (st, false)

/-- `TextInput.handle_event` (ui_system.py:540-648). Returns the new widget
state and whether the event was consumed. The synchronous re-wrap the code
triggers on the parent (`parent.layout_children()`, line 645) mutates only
the parent and the `lines` cache, not the fields modelled here. -/
def TextInput.handle_event (dims : List Char → ℚ) (uiScale : ℚ)
    (st : TIState) (ev : UIEvent) (mx my : ℚ) : TIState × Bool :=
  if ev.etype = EvType.LEFTMOUSE ∧ ev.value = EvValue.PRESS then
    if st.hover then
      let pos := get_cursor_pos_from_mouse dims uiScale st mx my
      ({ st with
          focused := true, is_selecting := true, cursor_pos := pos,
          selection_start := some pos, selection_end := some pos }, true)
    else
      handleRest dims uiScale
        { st with
            focused := false, is_selecting := false,
            selection_start := none, selection_end := none } ev mx my
  else if ev.etype = EvType.LEFTMOUSE ∧ ev.value = EvValue.RELEASE then
    if st.is_selecting then ({ st with is_selecting := false }, true)
    else (st, false)
  else handleRest dims uiScale st ev mx my

theorem restKeys_cursor_le (st : TIState) (ev : UIEvent)
    (hc : st.cursor_pos ≤ st.text.length) :
    (restKeys st ev).1.cursor_pos ≤ (restKeys st ev).1.text.length := by
  unfold restKeys
  split_ifs with h1 h2 h3 h4 h5 h6 h7 h8 h9 h10 h11
  · exact hc
  · simp only [List.length_append, List.length_take, List.length_drop,
      List.length_cons, List.length_nil]
    omega
  · simp only [List.length_append, List.length_take, List.length_drop]
    omega
  · exact hc
  · simp only [List.length_append, List.length_take, List.length_drop]
    omega
  · exact hc
  · simp only []
    omega
  · exact hc
  · simp only []
    omega
  · exact hc
  · have hu : 0 < ev.unicode.length := List.length_pos.mpr h11
    simp only [List.length_append, List.length_take, List.length_drop]
    omega
  · exact hc

theorem handleKey_cursor_le (st : TIState) (ev : UIEvent)
    (hc : st.cursor_pos ≤ st.text.length)
    (hs : ∀ i, st.selection_start = some i → i ≤ st.text.length)
    (he : ∀ i, st.selection_end = some i → i ≤ st.text.length) :
    (handleKey st ev).1.cursor_pos ≤ (handleKey st ev).1.text.length := by
  unfold handleKey
  rcases hss : st.selection_start with _ | a <;>
    rcases hse : st.selection_end with _ | b
  · exact restKeys_cursor_le st ev hc
  · exact restKeys_cursor_le st ev hc
  · exact restKeys_cursor_le st ev hc
  · have ha : a ≤ st.text.length := hs a hss
    have hb : b ≤ st.text.length := he b hse
    dsimp only
    by_cases hab : a ≠ b
    · rw [if_pos hab]
      by_cases hcond : ev.etype = EvType.BACK_SPACE ∨ ev.etype = EvType.DEL ∨
          ev.unicode ≠ []
      · rw [if_pos hcond]
        by_cases hbd : ev.etype = EvType.BACK_SPACE ∨ ev.etype = EvType.DEL
        · rw [if_pos hbd]
          dsimp only
          simp only [List.length_append, List.length_take, List.length_drop]
          omega
        · rw [if_neg hbd]
          have hul : 0 < ev.unicode.length := by
            rcases hcond with h | h | h
            · exact absurd (Or.inl h) hbd
            · exact absurd (Or.inr h) hbd
            · exact List.length_pos.mpr h
          dsimp only
          simp only [List.length_append, List.length_take, List.length_drop]
          omega
      · rw [if_neg hcond]
        exact hc
    · rw [if_neg hab]
      exact restKeys_cursor_le st ev hc

theorem handleRest_cursor_le (dims : List Char → ℚ) (uiScale : ℚ)
    (st : TIState) (ev : UIEvent) (mx my : ℚ)
    (hc : st.cursor_pos ≤ st.text.length)
    (hs : ∀ i, st.selection_start = some i → i ≤ st.text.length)
    (he : ∀ i, st.selection_end = some i → i ≤ st.text.length)
    (hl : ∀ l ∈ st.lines, l.start + l.text.length ≤ st.text.length) :
    (handleRest dims uiScale st ev mx my).1.cursor_pos ≤
      (handleRest dims uiScale st ev mx my).1.text.length := by
  unfold handleRest
  split_ifs with h1 h2 h3
  · exact get_cursor_pos_from_mouse_le dims uiScale st mx my hl
  · exact hc
  · exact handleKey_cursor_le st ev hc hs he
  · exact hc

/-- Claim C2: for every TextInput state whose cursor, selection indices and
cached line spans are within the current text (the data-model invariants of
the spec, section 3), processing any event with `TextInput.handle_event`
leaves `cursor_pos` within `0 ≤ cursor_pos ≤ len(text)`. -/
theorem C2_cursor_invariant (dims : List Char → ℚ) (uiScale : ℚ)
    (st : TIState) (ev : UIEvent) (mx my : ℚ)
    (hc : st.cursor_pos ≤ st.text.length)
    (hs : ∀ i, st.selection_start = some i → i ≤ st.text.length)
    (he : ∀ i, st.selection_end = some i → i ≤ st.text.length)
    (hl : ∀ l ∈ st.lines, l.start + l.text.length ≤ st.text.length) :
    (TextInput.handle_event dims uiScale st ev mx my).1.cursor_pos ≤
      (TextInput.handle_event dims uiScale st ev mx my).1.text.length := by
  unfold TextInput.handle_event
  split_ifs with h1 h2 h3 h4
  · exact get_cursor_pos_from_mouse_le dims uiScale st mx my hl
  · exact handleRest_cursor_le dims uiScale _ ev mx my hc
      (by intro i h; cases h) (by intro i h; cases h) hl
  · exact hc
  · exact hc
  · exact handleRest_cursor_le dims uiScale st ev mx my hc hs he hl

/-- Witness for C2: the theorem applied to a concrete focused state and a
Return key press. -/
theorem C2_cursor_invariant_witness :
    (TextInput.handle_event (fun cs => (cs.length : ℚ)) 1
        ⟨['a'], 1, none, none, false, true, false, [], 0, 0, 30, 10, 20⟩
        ⟨EvType.RET, EvValue.PRESS, []⟩ 0 0).1.cursor_pos ≤
      (TextInput.handle_event (fun cs => (cs.length : ℚ)) 1
        ⟨['a'], 1, none, none, false, true, false, [], 0, 0, 30, 10, 20⟩
        ⟨EvType.RET, EvValue.PRESS, []⟩ 0 0).1.text.length :=
  C2_cursor_invariant _ 1 _ _ 0 0 (by decide)
    (by intro i h; cases h) (by intro i h; cases h)
    (by intro l h; cases h)

/-- The state transform described by claim C3, built from the spec text:
remove the range `[min(selStart,selEnd), max(selStart,selEnd))` from the
text, set the cursor to that minimum index, insert the character at the
cursor, advance the cursor by one, and clear the selection. -/
def selReplaceSpec (st : TIState) (a b : Nat) (c : Char) : TIState :=
  let m := min a b
  let removed := st.text.take m ++ st.text.drop (max a b)
  { st with
      text := removed.take m ++ [c] ++ removed.drop m,
      cursor_pos := m + 1,
      selection_start := none,
      selection_end := none }

/-- Claim C3: for a focused TextInput with a non-empty active selection,
a printable-character key press yields exactly the state obtained by
deleting the selected range, placing the cursor at its lower end,
inserting the character there and advancing the cursor by one, with the
selection cleared; the event is consumed. -/
theorem C3_selection_replace (dims : List Char → ℚ) (uiScale : ℚ)
    (st : TIState) (mx my : ℚ) (a b : Nat) (c : Char)
    (hfoc : st.focused = true)
    (hss : st.selection_start = some a)
    (hse : st.selection_end = some b)
    (hab : a ≠ b) :
    TextInput.handle_event dims uiScale st
        ⟨EvType.KEY, EvValue.PRESS, [c]⟩ mx my
      = (selReplaceSpec st a b c, true) := by
  unfold TextInput.handle_event handleRest handleKey selReplaceSpec
  simp [hfoc, hss, hse, hab]

/-- Witness for C3: the theorem applied at a concrete state ("xyz" with
selection [0,2) and cursor 0) and the character q. -/
theorem C3_selection_replace_witness :
    TextInput.handle_event (fun cs => (cs.length : ℚ)) 1
        ⟨['x', 'y', 'z'], 0, some 0, some 2, false, true, false, [],
          0, 0, 30, 10, 20⟩
        ⟨EvType.KEY, EvValue.PRESS, ['q']⟩ 0 0
      = (selReplaceSpec
          ⟨['x', 'y', 'z'], 0, some 0, some 2, false, true, false, [],
            0, 0, 30, 10, 20⟩ 0 2 'q', true) :=
  C3_selection_replace _ 1 _ 0 0 0 2 'q' rfl rfl rfl (by decide)

/-- Whether a non-empty selection is active (the guard of
ui_system.py:582). -/
def hasActiveSel (st : TIState) : Bool :=
  match st.selection_start, st.selection_end with
  | some a, some b => decide (a ≠ b)
  | _, _ => false

/-- Claim C4 (amended): for a focused TextInput with NO active non-empty
selection, Left/Right arrow presses move the cursor by one (no-op at the
respective boundary, where the selection fields are also left untouched),
set both selection fields to None when the cursor does move, and are always
consumed. With a non-empty active selection an arrow key is ignored
entirely: the state is unchanged, the selection is NOT cleared and the
event is NOT consumed, because the arrow branches are `elif`s of the
selection-deletion `if` (ui_system.py:582-635). -/
theorem C4_arrow_keys (dims : List Char → ℚ) (uiScale : ℚ)
    (st : TIState) (mx my : ℚ) (hfoc : st.focused = true) :
    (hasActiveSel st = false → 0 < st.cursor_pos →
      TextInput.handle_event dims uiScale st
          ⟨EvType.LEFT_ARROW, EvValue.PRESS, []⟩ mx my
        = ({ st with
              cursor_pos := st.cursor_pos - 1,
              selection_start := none, selection_end := none }, true))
    ∧ (hasActiveSel st = false → st.cursor_pos = 0 →
      TextInput.handle_event dims uiScale st
          ⟨EvType.LEFT_ARROW, EvValue.PRESS, []⟩ mx my
        = (st, true))
    ∧ (hasActiveSel st = false → st.cursor_pos < st.text.length →
      TextInput.handle_event dims uiScale st
          ⟨EvType.RIGHT_ARROW, EvValue.PRESS, []⟩ mx my
        = ({ st with
              cursor_pos := st.cursor_pos + 1,
              selection_start := none, selection_end := none }, true))
    ∧ (hasActiveSel st = false → ¬ st.cursor_pos < st.text.length →
      TextInput.handle_event dims uiScale st
          ⟨EvType.RIGHT_ARROW, EvValue.PRESS, []⟩ mx my
        = (st, true))
    ∧ (hasActiveSel st = true →
      TextInput.handle_event dims uiScale st
          ⟨EvType.LEFT_ARROW, EvValue.PRESS, []⟩ mx my = (st, false)
      ∧ TextInput.handle_event dims uiScale st
          ⟨EvType.RIGHT_ARROW, EvValue.PRESS, []⟩ mx my = (st, false)) := by
  have hstep : ∀ ev : UIEvent, ev.etype ≠ EvType.LEFTMOUSE →
      ev.etype ≠ EvType.MOUSEMOVE → ev.value = EvValue.PRESS →
      TextInput.handle_event dims uiScale st ev mx my = handleKey st ev := by
    intro ev h1 h2 h3
    unfold TextInput.handle_event handleRest
    simp [h1, h2, h3, hfoc]
  refine ⟨?_, ?_, ?_, ?_, ?_⟩
  · intro hsel hpos
    rw [hstep _ (by simp) (by simp) rfl]
    unfold handleKey
    rcases hss : st.selection_start with _ | a <;>
      rcases hse : st.selection_end with _ | b <;>
      unfold restKeys <;> simp [restKeys, hpos]
    have hab : a = b := by
      have := hasActiveSel st
      unfold hasActiveSel at hsel
      rw [hss, hse] at hsel
      simpa using hsel
    simp [hab, restKeys, hpos]
  · intro hsel hpos
    rw [hstep _ (by simp) (by simp) rfl]
    unfold handleKey
    rcases hss : st.selection_start with _ | a <;>
      rcases hse : st.selection_end with _ | b <;>
      simp [restKeys, hpos]
    have hab : a = b := by
      unfold hasActiveSel at hsel
      rw [hss, hse] at hsel
      simpa using hsel
    simp [hab, restKeys, hpos]
  · intro hsel hpos
    rw [hstep _ (by simp) (by simp) rfl]
    unfold handleKey
    rcases hss : st.selection_start with _ | a <;>
      rcases hse : st.selection_end with _ | b <;>
      simp [restKeys, hpos]
    have hab : a = b := by
      unfold hasActiveSel at hsel
      rw [hss, hse] at hsel
      simpa using hsel
    simp [hab, restKeys, hpos]
  · intro hsel hpos
    rw [hstep _ (by simp) (by simp) rfl]
    unfold handleKey
    rcases hss : st.selection_start with _ | a <;>
      rcases hse : st.selection_end with _ | b <;>
      simp [restKeys, hpos]
    have hab : a = b := by
      unfold hasActiveSel at hsel
      rw [hss, hse] at hsel
      simpa using hsel
    simp [hab, restKeys, hpos]
  · intro hsel
    have hab : ∃ a b, st.selection_start = some a ∧ st.selection_end = some b
        ∧ a ≠ b := by
      unfold hasActiveSel at hsel
      rcases hss : st.selection_start with _ | a <;>
        rcases hse : st.selection_end with _ | b <;>
        rw [hss, hse] at hsel <;> simp at hsel
      exact ⟨a, b, rfl, rfl, hsel⟩
    obtain ⟨a, b, hss, hse, hab⟩ := hab
    constructor <;>
      (rw [hstep _ (by simp) (by simp) rfl];
       unfold handleKey;
       simp [hss, hse, hab])

/-- Witness for C4: the amended theorem applied at a concrete focused state
("ab", cursor 1, no selection): Left-arrow moves the cursor to 0 and is
consumed. -/
theorem C4_arrow_keys_witness :
    TextInput.handle_event (fun cs => (cs.length : ℚ)) 1
        ⟨['a', 'b'], 1, none, none, false, true, false, [], 0, 0, 30, 10, 20⟩
        ⟨EvType.LEFT_ARROW, EvValue.PRESS, []⟩ 0 0
      = ({ (⟨['a', 'b'], 1, none, none, false, true, false, [],
            0, 0, 30, 10, 20⟩ : TIState) with
            cursor_pos := 0,
            selection_start := none, selection_end := none }, true) :=
  (C4_arrow_keys (fun cs => (cs.length : ℚ)) 1
    ⟨['a', 'b'], 1, none, none, false, true, false, [], 0, 0, 30, 10, 20⟩
    0 0 rfl).1 rfl (by decide)

/-- Counterexample to claim C4 as stated: a focused TextInput on "ab" with
cursor 1 and active selection [0,1) receives a Left-arrow press; the claim
says the cursor moves to 0 and the selection is cleared, but the code
leaves the cursor at 1, keeps the selection and does not consume the
event. -/
theorem C4_counterexample :
    (TextInput.handle_event (fun cs => (cs.length : ℚ)) 1
        ⟨['a', 'b'], 1, some 0, some 1, false, true, false, [],
          0, 0, 30, 10, 20⟩
        ⟨EvType.LEFT_ARROW, EvValue.PRESS, []⟩ 0 0).1.cursor_pos = 1
    ∧ (TextInput.handle_event (fun cs => (cs.length : ℚ)) 1
        ⟨['a', 'b'], 1, some 0, some 1, false, true, false, [],
          0, 0, 30, 10, 20⟩
        ⟨EvType.LEFT_ARROW, EvValue.PRESS, []⟩ 0 0).1.selection_start = some 0
    ∧ (TextInput.handle_event (fun cs => (cs.length : ℚ)) 1
        ⟨['a', 'b'], 1, some 0, some 1, false, true, false, [],
          0, 0, 30, 10, 20⟩
        ⟨EvType.LEFT_ARROW, EvValue.PRESS, []⟩ 0 0).2 = false :=
  ⟨rfl, rfl, rfl⟩

/-! ### Button press/release handling (ui_system.py:230-325) -/

/-- A callback attached to a widget; `setFinished` is the default-OK closure
`default_ok` (ui_system.py:1337-1338), `user` any other callback. Execution
semantics are supplied separately by a `runCb` parameter. -/
inductive Cb
  | setFinished
  | user (id : Nat)
deriving DecidableEq

/-- An ancestor in a button's parent chain, as seen by the auto-close walk
of ui_system.py:316-322: either a Popup (with its `finished` flag) or some
other widget. -/
inductive Anc
  | popup (finished : Bool)
  | plain
deriving DecidableEq

/-- The auto-close walk (ui_system.py:317-322): traverse the parent chain
and set `finished := true` on the first Popup found. -/
def setFirstPopupFinished : List Anc → List Anc
  | [] => []
  | Anc.popup _ :: rest => Anc.popup true :: rest
  | Anc.plain :: rest => Anc.plain :: setFirstPopupFinished rest

/-- The `finished` flag of the first (nearest) Popup of the chain. -/
def firstPopupFinished : List Anc → Option Bool
  | [] => none
  | Anc.popup f :: _ => some f
  | Anc.plain :: rest => firstPopupFinished rest

/-- Mutable state of a Button (ui_system.py:230-241). -/
structure BtnState where
  text : List Char
  callback : Option Cb
  active : Bool
  hover : Bool
deriving DecidableEq

/-- The button texts that auto-close the owning popup (ui_system.py:315). -/
def okNames : List (List Char) :=
  [String.toList "ok", String.toList "okay", String.toList "close"]

/-- `Button.handle_event` (ui_system.py:301-325), with the parent chain made
explicit and callback execution modelled by `runCb`, which may raise
(`Except.error`). The Python code runs `self.callback()` with no try/except,
so a raised exception aborts the whole call. -/
def Button.handle_event (runCb : Cb → Except Nat Unit) (b : BtnState)
    (chain : List Anc) (ev : UIEvent) :
    Except Nat (BtnState × List Anc × Bool) :=
  if ev.etype = EvType.LEFTMOUSE then
    if ev.value = EvValue.PRESS then
      if b.hover then Except.ok ({ b with active := true }, chain, true)
      else Except.ok (b, chain, false)
    else if ev.value = EvValue.RELEASE then
      let was := b.active
      let b1 := { b with active := false }
      if was ∧ b1.hover then
        match b1.callback with
        | some cb =>
          match runCb cb with
          | Except.ok _ => Except.ok (b1, chain, true)
          | Except.error e => Except.error e
        | none =>
          if b1.text.map Char.toLower ∈ okNames then
            Except.ok (b1, setFirstPopupFinished chain, true)
          else Except.ok (b1, chain, true)
      else Except.ok (b1, chain, was)
    else Except.ok (b, chain, false)
  else Except.ok (b, chain, false)

theorem firstPopup_set_finished :
    ∀ chain : List Anc, (firstPopupFinished chain).isSome →
      firstPopupFinished (setFirstPopupFinished chain) = some true := by
  intro chain
  induction chain with
  | nil => intro h; simp [firstPopupFinished] at h
  | cons a rest ih =>
    intro h
    cases a with
    | popup f => simp [setFirstPopupFinished, firstPopupFinished]
    | plain =>
      simp only [setFirstPopupFinished, firstPopupFinished] at h ⊢
      exact ih h

/-- Claim C7: for a Button whose text lower-cases to "ok"/"okay"/"close" and
whose callback is None, a left-mouse press while hovered followed by a
release while still hovered sets the `finished` flag of the nearest Popup
ancestor to true, and the release is consumed (returns true). -/
theorem C7_ok_button_closes_popup (runCb : Cb → Except Nat Unit)
    (b : BtnState) (chain : List Anc)
    (hcb : b.callback = none)
    (htext : b.text.map Char.toLower ∈ okNames)
    (hhov : b.hover = true)
    (hpop : (firstPopupFinished chain).isSome) :
    Button.handle_event runCb b chain ⟨EvType.LEFTMOUSE, EvValue.PRESS, []⟩
      = Except.ok ({ b with active := true }, chain, true)
    ∧ Button.handle_event runCb { b with active := true } chain
        ⟨EvType.LEFTMOUSE, EvValue.RELEASE, []⟩
      = Except.ok ({ b with active := false },
          setFirstPopupFinished chain, true)
    ∧ firstPopupFinished (setFirstPopupFinished chain) = some true := by
  refine ⟨?_, ?_, firstPopup_set_finished chain hpop⟩
  · unfold Button.handle_event
    simp [hhov]
  · unfold Button.handle_event
    simp [hhov, hcb, htext]

/-- Witness for C7: an "OK" button with no callback above a chain whose
nearest Popup is unfinished. -/
theorem C7_ok_button_closes_popup_witness :
    Button.handle_event (fun _ => Except.ok ())
        ⟨String.toList "OK", none, false, true⟩
        [Anc.plain, Anc.popup false]
        ⟨EvType.LEFTMOUSE, EvValue.PRESS, []⟩
      = Except.ok (⟨String.toList "OK", none, true, true⟩,
          [Anc.plain, Anc.popup false], true)
    ∧ Button.handle_event (fun _ => Except.ok ())
        ⟨String.toList "OK", none, true, true⟩
        [Anc.plain, Anc.popup false]
        ⟨EvType.LEFTMOUSE, EvValue.RELEASE, []⟩
      = Except.ok (⟨String.toList "OK", none, false, true⟩,
          [Anc.plain, Anc.popup true], true)
    ∧ firstPopupFinished [Anc.plain, Anc.popup true] = some true :=
  C7_ok_button_closes_popup (fun _ => Except.ok ())
    ⟨String.toList "OK", none, false, true⟩ [Anc.plain, Anc.popup false]
    rfl (by decide) rfl (by decide)

/-- Claim C9 (amended): a callback exception is NOT caught at the event
dispatch boundary. `Button.handle_event` runs the callback bare
(ui_system.py:311-312), `Popup.handle_event` (line 1533) and the operator
modal loop (operators.py:79) add no try/except either, so firing a button
whose callback raises makes the release call itself raise: the exception
propagates to the caller instead of being logged and reported as "event not
fully handled". -/
theorem C9_callback_exception_propagates (runCb : Cb → Except Nat Unit)
    (b : BtnState) (chain : List Anc) (cb : Cb) (e : Nat)
    (hcb : b.callback = some cb)
    (hrun : runCb cb = Except.error e)
    (hhov : b.hover = true) :
    Button.handle_event runCb b chain ⟨EvType.LEFTMOUSE, EvValue.PRESS, []⟩
      = Except.ok ({ b with active := true }, chain, true)
    ∧ Button.handle_event runCb { b with active := true } chain
        ⟨EvType.LEFTMOUSE, EvValue.RELEASE, []⟩
      = Except.error e := by
  constructor
  · unfold Button.handle_event
    simp [hhov]
  · unfold Button.handle_event
    simp [hhov, hcb, hrun]

/-- Witness for C9: the amended theorem at a concrete raising callback. -/
theorem C9_callback_exception_propagates_witness :
    Button.handle_event (fun _ => Except.error 7)
        ⟨String.toList "Go", some (Cb.user 0), false, true⟩ []
        ⟨EvType.LEFTMOUSE, EvValue.PRESS, []⟩
      = Except.ok (⟨String.toList "Go", some (Cb.user 0), true, true⟩, [], true)
    ∧ Button.handle_event (fun _ => Except.error 7)
        ⟨String.toList "Go", some (Cb.user 0), true, true⟩ []
        ⟨EvType.LEFTMOUSE, EvValue.RELEASE, []⟩
      = Except.error 7 :=
  C9_callback_exception_propagates (fun _ => Except.error 7)
    ⟨String.toList "Go", some (Cb.user 0), false, true⟩ [] (Cb.user 0) 7
    rfl rfl rfl

/-- Counterexample to claim C9 as stated: an armed, hovered button whose
callback raises. The claim says the exception is caught and the release
returns false (not fully handled); instead the call evaluates to
`Except.error 7`, i.e. the exception escapes `handle_event` and no ordinary
return value is produced at all. -/
theorem C9_counterexample :
    Button.handle_event (fun _ => Except.error 7)
        ⟨String.toList "Go", some (Cb.user 0), true, true⟩ []
        ⟨EvType.LEFTMOUSE, EvValue.RELEASE, []⟩
      = Except.error 7
    ∧ (Button.handle_event (fun _ => Except.error 7)
        ⟨String.toList "Go", some (Cb.user 0), true, true⟩ []
        ⟨EvType.LEFTMOUSE, EvValue.RELEASE, []⟩).isOk = false :=
  ⟨rfl, rfl⟩

/-! ### Scrollbar dragging and the Popup scroll clamp
(ui_system.py:884-1011 and 1303-1306) -/

/-- The numeric scrollbar state read by the drag and track-click math
(ui_system.py:885-896). All lengths are in unscaled logical units. -/
structure SBState where
  height : ℚ
  width : ℚ
  thumb_size : ℚ
  max_scroll : ℚ
  scroll_offset : ℚ
  drag_start_y : ℚ
  drag_start_offset : ℚ
deriving DecidableEq

/-- `Popup._on_scroll` (ui_system.py:1303-1306): every scroll change coming
from the scrollbar or the wheel is clamped into [0, max_scroll] before being
stored (`layout_children` re-clamps with the same expression at
line 1220). -/
def popup_on_scroll (max_scroll new_offset : ℚ) : ℚ :=
  max 0 (min new_offset max_scroll)

/-- The thumb position the vertical drag starts from
(ui_system.py:992). -/
def sb_initial_thumb_pos (sb : SBState) : ℚ :=
  if 0 < sb.max_scroll then
    sb.drag_start_offset / sb.max_scroll * (sb.height - sb.thumb_size)
  else 0

/-- The new offset computed by a vertical thumb drag
(`Scrollbar.handle_event`, MOUSEMOVE branch, ui_system.py:987-995). -/
def sb_drag_offset_v (sb : SBState) (mouse_y uiScale : ℚ) : ℚ :=
  let delta := (sb.drag_start_y - mouse_y) / uiScale
  let new_thumb_pos :=
    max 0 (min (sb_initial_thumb_pos sb + delta) (sb.height - sb.thumb_size))
  if 0 < sb.height - sb.thumb_size then
    new_thumb_pos / (sb.height - sb.thumb_size) * sb.max_scroll
  else 0

/-- The new offset computed by a click on the vertical track outside the
thumb (ui_system.py:963-972): centre the thumb under the pointer, clamped
to the track. -/
def sb_track_click_offset_v (sb : SBState) (gy mouse_y uiScale : ℚ) : ℚ :=
  let scaled_height : ℚ := (pyInt (sb.height * uiScale) : ℚ)
  let click_y_from_top := (gy + scaled_height - mouse_y) / uiScale
  let new_thumb_pos :=
    max 0 (min (click_y_from_top - sb.thumb_size / 2)
      (sb.height - sb.thumb_size))
  if sb.thumb_size < sb.height then
    new_thumb_pos / (sb.height - sb.thumb_size) * sb.max_scroll
  else 0

theorem ratio_mul_max_scroll_bounds (track pos m : ℚ) (hm : 0 ≤ m)
    (htrack : 0 < track) (h0 : 0 ≤ pos) (h1 : pos ≤ track) :
    0 ≤ pos / track * m ∧ pos / track * m ≤ m := by
  constructor
  · exact mul_nonneg (div_nonneg h0 (le_of_lt htrack)) hm
  · have hr : pos / track ≤ 1 := (div_le_one htrack).mpr h1
    exact mul_le_of_le_one_left hm hr

/-- Claim C6: every scroll mutation path keeps the offset in
[0, max_scroll]: the popup clamp itself (covering wheel events and
relayout), the thumb drag, and the track click all land in the interval;
dragging the thumb so it reaches the far end of the track yields exactly
max_scroll, and to the near end exactly 0. -/
theorem C6_scroll_offset_clamped (sb : SBState) (gy mouse_y uiScale x : ℚ)
    (hm : 0 ≤ sb.max_scroll) :
    (0 ≤ popup_on_scroll sb.max_scroll x ∧
      popup_on_scroll sb.max_scroll x ≤ sb.max_scroll)
    ∧ (0 ≤ sb_drag_offset_v sb mouse_y uiScale ∧
        sb_drag_offset_v sb mouse_y uiScale ≤ sb.max_scroll)
    ∧ (0 ≤ sb_track_click_offset_v sb gy mouse_y uiScale ∧
        sb_track_click_offset_v sb gy mouse_y uiScale ≤ sb.max_scroll)
    ∧ (0 < sb.height - sb.thumb_size →
        sb.height - sb.thumb_size ≤
          sb_initial_thumb_pos sb + (sb.drag_start_y - mouse_y) / uiScale →
        popup_on_scroll sb.max_scroll (sb_drag_offset_v sb mouse_y uiScale)
          = sb.max_scroll)
    ∧ (sb_initial_thumb_pos sb + (sb.drag_start_y - mouse_y) / uiScale ≤ 0 →
        popup_on_scroll sb.max_scroll (sb_drag_offset_v sb mouse_y uiScale)
          = 0) := by
  have hclamp : ∀ y : ℚ, 0 ≤ popup_on_scroll sb.max_scroll y ∧
      popup_on_scroll sb.max_scroll y ≤ sb.max_scroll := by
    intro y
    unfold popup_on_scroll
    exact ⟨le_max_left 0 _, max_le hm (min_le_right y sb.max_scroll)⟩
  have hdrag : 0 ≤ sb_drag_offset_v sb mouse_y uiScale ∧
      sb_drag_offset_v sb mouse_y uiScale ≤ sb.max_scroll := by
    unfold sb_drag_offset_v
    by_cases ht : 0 < sb.height - sb.thumb_size
    · rw [if_pos ht]
      refine ratio_mul_max_scroll_bounds _ _ _ hm ht (le_max_left 0 _) ?_
      exact max_le (le_of_lt ht) (min_le_right _ _)
    · rw [if_neg ht]
      exact ⟨le_refl 0, hm⟩
  have htrack : 0 ≤ sb_track_click_offset_v sb gy mouse_y uiScale ∧
      sb_track_click_offset_v sb gy mouse_y uiScale ≤ sb.max_scroll := by
    unfold sb_track_click_offset_v
    by_cases ht : sb.thumb_size < sb.height
    · rw [if_pos ht]
      have ht' : 0 < sb.height - sb.thumb_size := by linarith
      refine ratio_mul_max_scroll_bounds _ _ _ hm ht' (le_max_left 0 _) ?_
      exact max_le (le_of_lt ht') (min_le_right _ _)
    · rw [if_neg ht]
      exact ⟨le_refl 0, hm⟩
  refine ⟨hclamp x, hdrag, htrack, ?_, ?_⟩
  · intro ht hfar
    have hpos : max 0 (min (sb_initial_thumb_pos sb +
        (sb.drag_start_y - mouse_y) / uiScale) (sb.height - sb.thumb_size))
        = sb.height - sb.thumb_size := by
      rw [min_eq_right hfar, max_eq_right (le_of_lt ht)]
    unfold sb_drag_offset_v
    rw [if_pos ht]
    show popup_on_scroll sb.max_scroll
      (max 0 (min _ _) / (sb.height - sb.thumb_size) * sb.max_scroll) = _
    rw [hpos, div_self (ne_of_gt ht), one_mul]
    unfold popup_on_scroll
    rw [min_self, max_eq_right hm]
  · intro hnear
    have hdz : sb_drag_offset_v sb mouse_y uiScale = 0 := by
      unfold sb_drag_offset_v
      by_cases ht : 0 < sb.height - sb.thumb_size
      · rw [if_pos ht]
        have hpos : max 0 (min (sb_initial_thumb_pos sb +
            (sb.drag_start_y - mouse_y) / uiScale)
            (sb.height - sb.thumb_size)) = 0 := by
          have h1 : min (sb_initial_thumb_pos sb +
              (sb.drag_start_y - mouse_y) / uiScale)
              (sb.height - sb.thumb_size) ≤ 0 :=
            le_trans (min_le_left _ _) hnear
          exact le_antisymm (max_le (le_refl 0) h1) (le_max_left 0 _)
        show max 0 (min _ _) / (sb.height - sb.thumb_size) * sb.max_scroll = 0
        rw [hpos, zero_div, zero_mul]
      · rw [if_neg ht]
    rw [hdz]
    unfold popup_on_scroll
    rw [min_eq_left hm, max_self]

/-- Witness for C6: the theorem at a concrete scrollbar state
(track 100, thumb 40, max_scroll 50). -/
theorem C6_scroll_offset_clamped_witness :
    (0 ≤ popup_on_scroll (⟨100, 16, 40, 50, 0, 0, 0⟩ : SBState).max_scroll 70 ∧
      popup_on_scroll (⟨100, 16, 40, 50, 0, 0, 0⟩ : SBState).max_scroll 70 ≤
        (⟨100, 16, 40, 50, 0, 0, 0⟩ : SBState).max_scroll)
    ∧ (0 ≤ sb_drag_offset_v ⟨100, 16, 40, 50, 0, 0, 0⟩ 0 1 ∧
        sb_drag_offset_v ⟨100, 16, 40, 50, 0, 0, 0⟩ 0 1 ≤
          (⟨100, 16, 40, 50, 0, 0, 0⟩ : SBState).max_scroll)
    ∧ (0 ≤ sb_track_click_offset_v ⟨100, 16, 40, 50, 0, 0, 0⟩ 0 0 1 ∧
        sb_track_click_offset_v ⟨100, 16, 40, 50, 0, 0, 0⟩ 0 0 1 ≤
          (⟨100, 16, 40, 50, 0, 0, 0⟩ : SBState).max_scroll)
    ∧ (0 < (⟨100, 16, 40, 50, 0, 0, 0⟩ : SBState).height -
          (⟨100, 16, 40, 50, 0, 0, 0⟩ : SBState).thumb_size →
        (⟨100, 16, 40, 50, 0, 0, 0⟩ : SBState).height -
          (⟨100, 16, 40, 50, 0, 0, 0⟩ : SBState).thumb_size ≤
          sb_initial_thumb_pos ⟨100, 16, 40, 50, 0, 0, 0⟩ +
            ((⟨100, 16, 40, 50, 0, 0, 0⟩ : SBState).drag_start_y - 0) / 1 →
        popup_on_scroll (⟨100, 16, 40, 50, 0, 0, 0⟩ : SBState).max_scroll
          (sb_drag_offset_v ⟨100, 16, 40, 50, 0, 0, 0⟩ 0 1) =
          (⟨100, 16, 40, 50, 0, 0, 0⟩ : SBState).max_scroll)
    ∧ (sb_initial_thumb_pos ⟨100, 16, 40, 50, 0, 0, 0⟩ +
          ((⟨100, 16, 40, 50, 0, 0, 0⟩ : SBState).drag_start_y - 0) / 1 ≤ 0 →
        popup_on_scroll (⟨100, 16, 40, 50, 0, 0, 0⟩ : SBState).max_scroll
          (sb_drag_offset_v ⟨100, 16, 40, 50, 0, 0, 0⟩ 0 1) = 0) :=
  C6_scroll_offset_clamped ⟨100, 16, 40, 50, 0, 0, 0⟩ 0 0 1 70 (by norm_num)

/-! ### Popup layout (ui_system.py:1035-1345) -/

/-- The widget kind of one popup child, as inspected by the default-OK scan
(ui_system.py:1323-1333): a Button (with its callback), a Row (with the
kinds of its children), or any other widget. -/
inductive CKind
  | button (callback : Option Cb)
  | row (sub : List CKind)
  | other

/-- A popup child as the layout pass sees it: its kind, the height its own
layout routine reports for a given available width (`measure` abstracts the
external text measurement driving the child's
`update_layout_custom`/`update_layout`), and its current height field. -/
structure PChild where
  kind : CKind
  measure : Int → Int
  height : Int

/-- The layout-relevant state of a Popup (ui_system.py:1036-1070). The
scrollbar internals are summarised by `has_scrollbar` (it is created lazily
when scrolling activates and dropped otherwise, ui_system.py:1223 and
1237). -/
structure PopupState where
  width : Int
  height : Int
  auto_width : Bool
  auto_height : Bool
  margin : Int
  padding : Int
  title_height : Int
  prevent_close : Bool
  finished : Bool
  scroll_offset : ℚ
  max_scroll : Int
  is_scrollable : Bool
  content_height : Int
  visible_content_height : Int
  has_scrollbar : Bool
  on_enter : Option Cb
  children : List PChild

/-- Total child height plus the fixed inter-child padding (the running sums
of ui_system.py:1163-1168 and 1199-1208). -/
def sumChildHeights (padding : Int) (cs : List PChild) : Int :=
  (cs.map fun c => c.height).sum + ((cs.length - 1 : Nat) : Int) * padding

/-- `Popup._get_max_popup_height` (ui_system.py:1288-1301): 75% of the
target region height in pixels, or the 600-pixel ultimate fallback. -/
def get_max_popup_height : Option Int → Int
  | some rh => pyInt ((rh : ℚ) * (3 / 4))
  | none => 600

/-- The children re-measured at the full content width
(pass 2, ui_system.py:1145-1155; the width is 400 when auto-width,
line 1141). -/
def measuredChildren (p : PopupState) : List PChild :=
  p.children.map fun c =>
    { c with height :=
        c.measure ((if p.auto_width then 400 else p.width) - 2 * p.margin) }

/-- The first-pass total content height of ui_system.py:1157-1171: unscaled
title height 45, top padding, measured child heights with inter-child
padding, bottom margin. -/
def totalContentHeight (p : PopupState) : Int :=
  45 + p.padding + sumChildHeights p.padding (measuredChildren p) + p.margin

/-- `Popup.layout_children` (ui_system.py:1133-1286), restricted to the
fields the claims reference. The final child-positioning loop
(lines 1269-1286) mutates only child coordinates and the recentring block
(lines 1239-1267) only the popup's y coordinate; neither touches any field
modelled here. -/
def layout_children (uiScale : ℚ) (regionHeight : Option Int)
    (p : PopupState) : PopupState :=
  let title_h := pyInt (45 * uiScale)
  let width' := if p.auto_width then (400 : Int) else p.width
  let cs1 := measuredChildren p
  let total_child_height := sumChildHeights p.padding cs1
  let total_content_height := totalContentHeight p
  let max_height := get_max_popup_height regionHeight
  if total_content_height > max_height then
    let h := pyInt ((max_height : ℚ) / uiScale)
    let scaled_h := pyInt ((h : ℚ) * uiScale)
    let vis := pyInt (((scaled_h - title_h : Int) : ℚ) / uiScale)
    let cs2 := cs1.map fun c =>
      { c with height := c.measure (width' - 16 - 2 * p.margin) }
    let content_height2 := sumChildHeights p.padding cs2 + p.margin
    let max_scroll2 := max 0 (content_height2 - vis)
    { p with
        width := width', title_height := title_h,
        height := h, children := cs2, is_scrollable := true,
        visible_content_height := vis, content_height := content_height2,
        max_scroll := max_scroll2,
        scroll_offset := max 0 (min p.scroll_offset (max_scroll2 : ℚ)),
        has_scrollbar := true }
  else
    { p with
        width := width', title_height := title_h,
        height := if p.auto_height then total_content_height else p.height,
        children := cs1, is_scrollable := false,
        content_height := total_child_height,
        max_scroll := 0, scroll_offset := 0, has_scrollbar := false }

theorem pyInt_div_one (n : Int) : pyInt ((n : ℚ) / 1) = n := by
  rw [div_one, pyInt_intCast]

theorem pyInt_mul_one (n : Int) : pyInt ((n : ℚ) * 1) = n := by
  rw [mul_one, pyInt_intCast]

theorem pyInt_45_mul_one : pyInt (45 * (1 : ℚ)) = 45 := by
  have h : (45 : ℚ) * 1 = ((45 : Int) : ℚ) := by norm_num
  rw [h, pyInt_intCast]

/-- Claim C5 (amended): at display scale 1, with first-pass total measured
content height H and cap C = ⌊0.75 × region height⌋, for EVERY popup:
`is_scrollable` becomes true exactly when H > C, and when scrolling
activates, `max_scroll = max(0, content_height − visible_content_height)`.
The resulting popup height equals `min(H, C)` whenever the popup is
auto-height; a popup constructed with an explicit height keeps that height
when H ≤ C, and every popup is clamped to height C when H > C. -/
theorem C5_popup_auto_height (p : PopupState) (rh : Int) :
    ((layout_children 1 (some rh) p).is_scrollable = true ↔
      totalContentHeight p > get_max_popup_height (some rh))
    ∧ (p.auto_height = true →
        (layout_children 1 (some rh) p).height =
          min (totalContentHeight p) (get_max_popup_height (some rh)))
    ∧ (p.auto_height = false →
        totalContentHeight p ≤ get_max_popup_height (some rh) →
        (layout_children 1 (some rh) p).height = p.height)
    ∧ (totalContentHeight p > get_max_popup_height (some rh) →
        (layout_children 1 (some rh) p).height =
          get_max_popup_height (some rh))
    ∧ ((layout_children 1 (some rh) p).is_scrollable = true →
        (layout_children 1 (some rh) p).max_scroll =
          max 0 ((layout_children 1 (some rh) p).content_height -
            (layout_children 1 (some rh) p).visible_content_height)) := by
  unfold layout_children
  by_cases hsc : totalContentHeight p > get_max_popup_height (some rh)
  · rw [if_pos hsc]
    dsimp only
    refine ⟨by simp [hsc], ?_, ?_, ?_, ?_⟩
    · intro _
      rw [pyInt_div_one, min_eq_right (le_of_lt hsc)]
    · intro _ hle
      exact absurd hsc (not_lt.mpr hle)
    · intro _
      rw [pyInt_div_one]
    · intro _
      rfl
  · rw [if_neg hsc]
    dsimp only
    refine ⟨by simp [hsc], ?_, ?_, ?_, ?_⟩
    · intro hAuto
      rw [hAuto, if_pos rfl, min_eq_left (not_lt.mp hsc)]
    · intro hFixed _
      rw [hFixed]
      simp
    · intro h
      exact absurd h hsc
    · intro h
      simp at h

/-- A popup constructed with an explicit height (auto_height = false). -/
def fixedPopupExample : PopupState :=
  ⟨400, 300, false, false, 20, 10, 40, false, false, 0, 0, false, 0, 0,
    false, none, [⟨CKind.other, fun _ => 10, 10⟩]⟩

/-- A popup constructed with an explicit height whose single child measures
700 pixels tall, so its content overflows the 450-pixel cap of a 600-pixel
region. -/
def fixedTallPopupExample : PopupState :=
  ⟨400, 300, false, false, 20, 10, 40, false, false, 0, 0, false, 0, 0,
    false, none, [⟨CKind.other, fun _ => 700, 700⟩]⟩

/-- Witness for C5: the theorem applied at concrete popups in a 600-pixel
region (cap C = 450), exercising every clause: an auto-height popup
(H = 85) takes height min(H, C); a fixed-height popup with the same content
keeps its constructed height 300; a fixed-height popup with 700-pixel-tall
content (H = 775 > C) is clamped to 450, is scrollable, and carries
max_scroll = max(0, content_height − visible_content_height). -/
theorem C5_popup_auto_height_witness :
    (layout_children 1 (some 600)
        ⟨400, 300, false, true, 20, 10, 40, false, false, 0, 0, false, 0, 0,
          false, none, [⟨CKind.other, fun _ => 10, 10⟩]⟩).height =
      min (totalContentHeight
          ⟨400, 300, false, true, 20, 10, 40, false, false, 0, 0, false, 0, 0,
            false, none, [⟨CKind.other, fun _ => 10, 10⟩]⟩)
        (get_max_popup_height (some 600))
    ∧ (layout_children 1 (some 600) fixedPopupExample).height =
        fixedPopupExample.height
    ∧ (layout_children 1 (some 600) fixedTallPopupExample).height =
        get_max_popup_height (some 600)
    ∧ (layout_children 1 (some 600) fixedTallPopupExample).is_scrollable = true
    ∧ (layout_children 1 (some 600) fixedTallPopupExample).max_scroll =
        max 0 ((layout_children 1 (some 600)
            fixedTallPopupExample).content_height -
          (layout_children 1 (some 600)
            fixedTallPopupExample).visible_content_height) := by
  have hC : get_max_popup_height (some 600) = 450 := by
    with_unfolding_all rfl
  have hSmall : totalContentHeight fixedPopupExample = 85 := by
    with_unfolding_all rfl
  have hTall : totalContentHeight fixedTallPopupExample = 775 := by
    with_unfolding_all rfl
  have hTallGt : totalContentHeight fixedTallPopupExample >
      get_max_popup_height (some 600) := by
    rw [hTall, hC]
    decide
  have hScr : (layout_children 1 (some 600) fixedTallPopupExample).is_scrollable
      = true :=
    (C5_popup_auto_height fixedTallPopupExample 600).1.mpr hTallGt
  refine ⟨(C5_popup_auto_height _ 600).2.1 rfl, ?_, ?_, hScr, ?_⟩
  · exact (C5_popup_auto_height fixedPopupExample 600).2.2.1 rfl
      (by rw [hSmall, hC]; decide)
  · exact (C5_popup_auto_height fixedTallPopupExample 600).2.2.2.1 hTallGt
  · exact (C5_popup_auto_height fixedTallPopupExample 600).2.2.2.2 hScr

/-- Counterexample to claim C5 as stated: a popup constructed with explicit
height 300 and total measured content height H = 85 against cap C = 450
keeps its height 300 after layout, which differs from min(H, C) = 85. -/
theorem C5_counterexample :
    (layout_children 1 (some 600) fixedPopupExample).height = 300
    ∧ min (totalContentHeight fixedPopupExample)
        (get_max_popup_height (some 600)) = 85
    ∧ (300 : Int) ≠ 85 := by
  refine ⟨?_, ?_, by decide⟩
  · with_unfolding_all rfl
  · with_unfolding_all rfl

/-- Whether the kind is a Button (the `isinstance(child, Button)` checks of
ui_system.py:1325 and 1331). -/
def isButtonKind : CKind → Bool
  | CKind.button _ => true
  | _ => false

/-- The default-OK-button scan of `Popup.update_layout`
(ui_system.py:1323-1333): a Button directly among the children, or one
level deep inside a Row child. -/
def hasButtonScan (ks : List CKind) : Bool :=
  ks.any fun k =>
    match k with
    | CKind.button _ => true
    | CKind.row sub => sub.any isButtonKind
    | CKind.other => false

/-- `Popup.update_layout` (ui_system.py:1318-1390), restricted to the
default-button injection and the `layout_children` call. The region search
(lines 1347-1373) and the final centring (lines 1378-1390) mutate only the
target region and the popup position. `okMeasure` abstracts the text
measurement of the injected "OK" button (initial height 30 from the Button
constructor). -/
def update_layout (uiScale : ℚ) (regionHeight : Option Int)
    (okMeasure : Int → Int) (p : PopupState) : PopupState :=
  let p1 :=
    if ¬ hasButtonScan (p.children.map fun c => c.kind) ∧
        ¬ p.prevent_close then
      let p2 := { p with children := p.children ++
        [⟨CKind.button (some Cb.setFinished), okMeasure, 30⟩] }
      if p2.on_enter = none then { p2 with on_enter := some Cb.setFinished }
      else p2
    else p
  layout_children uiScale regionHeight p1

theorem layout_children_kinds (uiScale : ℚ) (regionHeight : Option Int)
    (p : PopupState) :
    (layout_children uiScale regionHeight p).children.map (fun c => c.kind)
      = p.children.map fun c => c.kind := by
  unfold layout_children
  dsimp only
  split <;> split <;>
    (unfold measuredChildren; simp [List.map_map, Function.comp])

theorem layout_children_on_enter (uiScale : ℚ) (regionHeight : Option Int)
    (p : PopupState) :
    (layout_children uiScale regionHeight p).on_enter = p.on_enter := by
  unfold layout_children
  dsimp only
  split <;> split <;> rfl

/-- Claim C8: `Popup.update_layout` appends exactly one default "OK" button
(whose callback is the set-finished closure) when the scan over the children
(including one level into Rows) finds no Button and `prevent_close` is
false, and makes it the Enter action when none was set; otherwise the
children are left as they are. -/
theorem C8_default_ok_button (uiScale : ℚ) (regionHeight : Option Int)
    (okMeasure : Int → Int) (p : PopupState) :
    (hasButtonScan (p.children.map fun c => c.kind) = false →
      p.prevent_close = false →
      ((update_layout uiScale regionHeight okMeasure p).children.map
          (fun c => c.kind)
        = (p.children.map fun c => c.kind) ++
            [CKind.button (some Cb.setFinished)]
      ∧ (p.on_enter = none →
          (update_layout uiScale regionHeight okMeasure p).on_enter =
            some Cb.setFinished)
      ∧ ∀ cb, p.on_enter = some cb →
          (update_layout uiScale regionHeight okMeasure p).on_enter = some cb))
    ∧ ((hasButtonScan (p.children.map fun c => c.kind) = true ∨
        p.prevent_close = true) →
      (update_layout uiScale regionHeight okMeasure p).children.map
          (fun c => c.kind)
        = p.children.map fun c => c.kind) := by
  constructor
  · intro hscan hpc
    have hcond : ¬ hasButtonScan (p.children.map fun c => c.kind) ∧
        ¬ p.prevent_close := by simp [hscan, hpc]
    refine ⟨?_, ?_, ?_⟩
    · unfold update_layout
      rw [if_pos hcond]
      by_cases hoe : p.on_enter = none
      · rw [if_pos hoe, layout_children_kinds]
        simp
      · rw [if_neg hoe, layout_children_kinds]
        simp
    · intro hoe
      unfold update_layout
      rw [if_pos hcond, if_pos hoe, layout_children_on_enter]
    · intro cb hoe
      unfold update_layout
      rw [if_pos hcond]
      have : ¬ ({ p with children := p.children ++
          [⟨CKind.button (some Cb.setFinished), okMeasure, 30⟩] } :
            PopupState).on_enter = none := by
        simp [hoe]
      rw [if_neg this, layout_children_on_enter]
      exact hoe
  · intro hneg
    have hcond : ¬ (¬ hasButtonScan (p.children.map fun c => c.kind) ∧
        ¬ p.prevent_close) := by
      rcases hneg with h | h <;> simp [h]
    unfold update_layout
    rw [if_neg hcond, layout_children_kinds]

/-- Witness for C8: the spec scenario, a popup with one Label-like child,
`prevent_close = false` and no Enter action: after `update_layout` the child
kinds are the Label plus exactly one auto-added OK button (2 children), and
the OK closure became the Enter action. -/
theorem C8_default_ok_button_witness :
    (update_layout 1 (some 600) (fun _ => 30)
        ⟨400, 300, false, true, 20, 10, 40, false, false, 0, 0, false, 0, 0,
          false, none, [⟨CKind.other, fun _ => 10, 10⟩]⟩).children.map
        (fun c => c.kind)
      = [CKind.other, CKind.button (some Cb.setFinished)]
    ∧ (update_layout 1 (some 600) (fun _ => 30)
        ⟨400, 300, false, true, 20, 10, 40, false, false, 0, 0, false, 0, 0,
          false, none, [⟨CKind.other, fun _ => 10, 10⟩]⟩).on_enter
      = some Cb.setFinished := by
  have h := C8_default_ok_button 1 (some 600) (fun _ => 30)
    ⟨400, 300, false, true, 20, 10, 40, false, false, 0, 0, false, 0, 0,
      false, none, [⟨CKind.other, fun _ => 10, 10⟩]⟩
  exact ⟨(h.1 rfl rfl).1, (h.1 rfl rfl).2.1 rfl⟩

/-! ### ProgressBar fill (ui_system.py:825-837) -/

/-- The fill computation of `ProgressBar.draw` (ui_system.py:830-836):
the clamped percentage and the resulting fill width in pixels. -/
def progress_fill (current max_value : ℚ) (scaled_width : Int) : ℚ × Int :=
  let percentage :=
    if 0 < max_value then max 0 (min 1 (current / max_value)) else 0
  (percentage, pyInt ((scaled_width : ℚ) * percentage))

/-- Claim C10: with max_value ≤ 0 the draw code takes the guard branch, so
the fill percentage is exactly 0 (no division by max_value is evaluated)
and the fill width is 0 for every current value; the fill rectangle is then
not drawn (the guard at line 836 requires fill_width > 0). -/
theorem C10_progress_zero_max (current max_value : ℚ) (scaled_width : Int)
    (h : max_value ≤ 0) :
    (progress_fill current max_value scaled_width).1 = 0
    ∧ (progress_fill current max_value scaled_width).2 = 0 := by
  unfold progress_fill
  rw [if_neg (not_lt.mpr h)]
  refine ⟨rfl, ?_⟩
  show pyInt ((scaled_width : ℚ) * 0) = 0
  rw [mul_zero]
  unfold pyInt
  norm_num

/-- Witness for C10: current 5, max_value 0, width 200. -/
theorem C10_progress_zero_max_witness :
    (progress_fill 5 0 200).1 = 0 ∧ (progress_fill 5 0 200).2 = 0 :=
  C10_progress_zero_max 5 0 200 (le_refl 0)

end UiSystem
